import Mathlib

/-!
Verification development for the world-state and combat core of a top-down
action game (source: docs/src/Game.js).  The data model and the operations are
shallowly embedded over exact rationals; Euclidean lengths, which the source
obtains with a square root, are handled through squared comparisons together
with bridging lemmas over the reals, and the knockback normalisation is
embedded over the reals directly.
-/

namespace Game

/-- A 3-component vector with exact rational coordinates
(embeds THREE.Vector3 as used by the placement and combat code). -/
structure Vec3 where
  x : ℚ
  y : ℚ
  z : ℚ
  deriving DecidableEq, Repr

/-- Componentwise difference, as in THREE.Vector3.sub. -/
def Vec3.sub (a b : Vec3) : Vec3 :=
  ⟨a.x - b.x, a.y - b.y, a.z - b.z⟩

/-- Dot product, as in THREE.Vector3.dot. -/
def Vec3.dot (a b : Vec3) : ℚ :=
  a.x * b.x + a.y * b.y + a.z * b.z

/-- Squared Euclidean length, as in THREE.Vector3.lengthSq. -/
def Vec3.lengthSq (v : Vec3) : ℚ :=
  v.x * v.x + v.y * v.y + v.z * v.z

/-- Squared distance between two points, as in THREE.Vector3.distanceToSquared. -/
def Vec3.distanceToSquared (a b : Vec3) : ℚ :=
  (a.sub b).lengthSq

/-- The setY(0) projection the placement code applies before measuring the
distance to the player spawn point. -/
def Vec3.setY0 (v : Vec3) : Vec3 :=
  ⟨v.x, 0, v.z⟩

/-- An axis-aligned bounding box, as THREE.Box3. -/
structure Box3 where
  min : Vec3
  max : Vec3
  deriving DecidableEq, Repr

/-- THREE.Box3.intersectsBox: the boxes overlap on every axis, with touching
faces counting as an intersection (the comparisons in the source are strict
in the separated direction). -/
def Box3.intersectsBox (a b : Box3) : Bool :=
  !(decide (b.max.x < a.min.x) || decide (b.min.x > a.max.x) ||
    decide (b.max.y < a.min.y) || decide (b.min.y > a.max.y) ||
    decide (b.max.z < a.min.z) || decide (b.min.z > a.max.z))

/-! ### Placement constants (Game.js constructor) -/

/-- playerSpawnPos in the constructor: the origin. -/
def playerSpawnPos : Vec3 := ⟨0, 0, 0⟩

/-- reservedRadius = 60 metres of clearance around the player spawn. -/
def reservedRadius : ℚ := 60

/-- reservedRadiusSq = reservedRadius ** 2. -/
def reservedRadiusSq : ℚ := reservedRadius ^ 2

/-! ### Scattered prop placement (loadStaticRocks / loadStaticFences)

The sampling itself (Math.random positions, the cubic scale bias) and the
world AABB computed by Box3.setFromObject are external inputs; a candidate
records the sampled position together with the resulting world box. -/

/-- One rejection-sampling candidate: the sampled position of the prop and
the world AABB computed for the transformed clone. -/
structure ScatterCand where
  pos : Vec3
  box : Box3
  deriving DecidableEq, Repr

/-- maxAttempts = 40, the tries per rock or fence before the code gives up. -/
def maxAttempts : ℕ := 40

/-- The acceptance test of one candidate in loadStaticRocks/loadStaticFences:
clearOfPlayer is the strict squared-distance comparison against the reserved
radius (on the position with y zeroed), and the candidate overlaps nothing
when it is clear of the player and intersects no registered collider. -/
def scatterAccept (staticColliders : List Box3) (c : ScatterCand) : Bool :=
  let clearOfPlayer := decide ((c.pos.setY0).distanceToSquared playerSpawnPos > reservedRadiusSq)
  let overlapsSomething := !clearOfPlayer || staticColliders.any (fun b => b.intersectsBox c.box)
  !overlapsSomething

/-- The inner attempt loop for one instance: try the sampled candidates in
order; on the first accepted one, push its box onto staticColliders; if the
list of attempts is exhausted the colliders are returned unchanged (the
instance is skipped). -/
def tryPlaceScatter (staticColliders : List Box3) : List ScatterCand → List Box3
  | [] => staticColliders
  | c :: rest =>
    if scatterAccept staticColliders c then staticColliders ++ [c.box]
    else tryPlaceScatter staticColliders rest

/-- loadStaticRocks: for each of the rockCount instances, run the bounded
attempt loop (at most maxAttempts candidates are consumed per instance). -/
def loadStaticRocks (staticColliders : List Box3) : List (List ScatterCand) → List Box3
  | [] => staticColliders
  | cands :: rest =>
    loadStaticRocks (tryPlaceScatter staticColliders (cands.take maxAttempts)) rest

/-- loadStaticFences: identical placement logic to loadStaticRocks (the fence
loop differs only in the externally sampled template, scale and counts). -/
def loadStaticFences (staticColliders : List Box3) : List (List ScatterCand) → List Box3
  | [] => staticColliders
  | cands :: rest =>
    loadStaticFences (tryPlaceScatter staticColliders (cands.take maxAttempts)) rest

/-! ### Turret placement (isTurretPlacementValid and the pointerup commit) -/

/-- Game.TURRET_RADIUS = 1.6 metres. -/
def TURRET_RADIUS : ℚ := 8 / 5

/-- The flat bounding box isTurretPlacementValid builds around a proposed
centre: half-width TURRET_RADIUS in x and z, spanning y in the interval
from -1 to 3. -/
def turretBB (pos : Vec3) : Box3 :=
  ⟨⟨pos.x - TURRET_RADIUS, -1, pos.z - TURRET_RADIUS⟩,
   ⟨pos.x + TURRET_RADIUS, 3, pos.z + TURRET_RADIUS⟩⟩

/-- isTurretPlacementValid: the spot is free of static props and of other
turrets.  Turrets are recorded by their position; the source compares
squared distances against (TURRET_RADIUS * 2) ** 2. -/
def isTurretPlacementValid (staticColliders : List Box3) (turrets : List Vec3)
    (pos : Vec3) : Bool :=
  let bb := turretBB pos
  if staticColliders.any (fun box => box.intersectsBox bb) then false
  else if turrets.any (fun t => decide (t.distanceToSquared pos < (TURRET_RADIUS * 2) ^ 2)) then
    false
  else true

/-- The slice of game state touched by the turret pointerup commit handler,
plus the pathfinding grid baked at world build. -/
structure CommitState where
  staticColliders : List Box3
  turrets : List Vec3
  turretTokens : ℤ
  mana : ℚ
  grid : List Box3
  deriving DecidableEq, Repr

/-- turretCost = 50, the mana price of a turret in the pointerup handler. -/
def turretCost : ℚ := 50

/-- Modelled from the spec: Player.spendMana is not under src.  The spec
requires that a commit with insufficient resources is rejected synchronously
with no state mutation, so spending succeeds and deducts the cost exactly
when enough mana is available, and leaves the mana untouched otherwise. -/
def spendMana (mana cost : ℚ) : ℚ × Bool :=
  if cost ≤ mana then (mana - cost, true) else (mana, false)

/-- The pointerup commit handler for a dragged turret.  The source computes
ok = !isNaN(pos.x) && isTurretPlacementValid(pos) (rational coordinates have
no NaN, so the isNaN guard is vacuous here) and only evaluates
player.spendMana when ok holds, because && short-circuits; on success the new
turret is pushed and one turret token is spent.  The returned boolean records
whether spendMana was invoked. -/
def commitTurret (s : CommitState) (pos : Vec3) : CommitState × Bool :=
  let ok := isTurretPlacementValid s.staticColliders s.turrets pos
  if ok then
    let r := spendMana s.mana turretCost
    if r.2 then
      ({ s with mana := r.1,
                turrets := s.turrets ++ [pos],
                turretTokens := s.turretTokens - 1 }, true)
    else
      ({ s with mana := r.1 }, true)
  else (s, false)

/-- Modelled from the spec: GridPathFinder is not under src.  The grid bake
records each static collider handed to addCollider once; the baked grid is
modelled as that list of colliders. -/
def bakeGrid (staticColliders : List Box3) : List Box3 :=
  staticColliders

/-- initPathfinding: runs once at world build, after the static models are
loaded, and feeds every box of staticColliders (padding 0, on a clone) to the
pathfinder.  Nothing rebakes the grid afterwards. -/
def initPathfinding (s : CommitState) : CommitState :=
  { s with grid := bakeGrid s.staticColliders }

/-! ### Combat: vectors over the reals

The knockback code normalises vectors, which involves a square root, so the
velocity of an enemy is embedded over the reals while every quantity the
source compares or adds without a square root stays rational. -/

/-- A 3-component vector over the reals (for enemy velocities and for the
bridging statements about Euclidean lengths). -/
structure RVec3 where
  x : ℝ
  y : ℝ
  z : ℝ

/-- Cast a rational vector to the reals. -/
noncomputable def Vec3.toR (v : Vec3) : RVec3 :=
  ⟨(v.x : ℝ), (v.y : ℝ), (v.z : ℝ)⟩

/-- Componentwise sum, as THREE.Vector3.add. -/
noncomputable def RVec3.add (a b : RVec3) : RVec3 :=
  ⟨a.x + b.x, a.y + b.y, a.z + b.z⟩

/-- Scaling, as THREE.Vector3.multiplyScalar. -/
noncomputable def RVec3.smul (c : ℝ) (v : RVec3) : RVec3 :=
  ⟨c * v.x, c * v.y, c * v.z⟩

/-- Dot product over the reals. -/
noncomputable def RVec3.dot (a b : RVec3) : ℝ :=
  a.x * b.x + a.y * b.y + a.z * b.z

/-- Euclidean length, as THREE.Vector3.length. -/
noncomputable def RVec3.norm (v : RVec3) : ℝ :=
  Real.sqrt (v.x ^ 2 + v.y ^ 2 + v.z ^ 2)

/-- THREE.Vector3.normalize: divideScalar(length || 1), so the zero vector is
left unchanged and any other vector is scaled to unit length. -/
noncomputable def RVec3.normalize (v : RVec3) : RVec3 :=
  if v.norm = 0 then v else RVec3.smul (1 / v.norm) v

/-- Zeroing the vertical component (knockbackDir.y = 0 in the source). -/
noncomputable def RVec3.setY0 (v : RVec3) : RVec3 :=
  ⟨v.x, 0, v.z⟩

/-! ### Enemies and damage -/

/-- An enemy as the combat code reads it: position, velocity, health, mass
and collision radius. -/
structure Enemy where
  pos : Vec3
  velocity : RVec3
  health : ℚ
  mass : ℚ
  radius : ℚ

/-- Modelled from the spec: Enemy.takeDamage is not under src.  The spec
states that health is clamped at a non-negative floor and that the call
reports whether the target's health reached zero. -/
def takeDamage (e : Enemy) (d : ℚ) : Enemy × Bool :=
  ({ e with health := max 0 (e.health - d) }, decide (e.health - d ≤ 0))

/-! ### Bullets (the UPDATE BULLETS section of animate) -/

/-- A bullet as the collision code reads it: position, velocity, mass,
radius, and the optional explicit damage override set by power-ups
(none embeds the absent bullet.damage picked up by the ?? operator). -/
structure Bullet where
  pos : Vec3
  velocity : Vec3
  mass : ℚ
  radius : ℚ
  damage : Option ℚ
  deriving DecidableEq, Repr

/-- Modelled from the spec: Bullet.update is not under src.  A projectile
advances by its velocity scaled by the frame delta. -/
def bulletUpdate (delta : ℚ) (b : Bullet) : Bullet :=
  { b with pos := ⟨b.pos.x + delta * b.velocity.x,
                   b.pos.y + delta * b.velocity.y,
                   b.pos.z + delta * b.velocity.z⟩ }

/-- The 0.02 factor the source multiplies the kinetic energy by. -/
def damageScale : ℚ := 2 / 100

/-- The damage a bullet deals on impact: energy = 0.5 * mass * velocity
lengthSq (the squared speed, no square root), baseDmg = energy * 0.02, and
bullet.damage ?? baseDmg picks the explicit override when it is set. -/
def bulletDamage (b : Bullet) : ℚ :=
  let energy := (1 / 2) * b.mass * b.velocity.lengthSq
  let baseDmg := energy * damageScale
  b.damage.getD baseDmg

/-- The hit test of the source: distanceTo(enemy) < bullet.radius +
enemy.radius.  Both sides are non-negative for the radii the game uses, so
the strict comparison of distances is the strict comparison of their squares
(lemma collides_iff_dist_lt below). -/
def collides (b : Bullet) (e : Enemy) : Bool :=
  decide (b.pos.distanceToSquared e.pos < (b.radius + e.radius) ^ 2)

/-- The inner enemy scan for one bullet: j runs from enemies.length - 1 down
to 0; at the first colliding enemy the damage is applied, a dead enemy is
spliced out of the list (removeEnemy), and the scan stops (break), reporting
the hit so that the outer loop can splice out the bullet. -/
def scanGo (b : Bullet) : ℕ → List Enemy → List Enemy × Bool
  | 0, es => (es, false)
  | j + 1, es =>
    if h : j < es.length then
      let e := es.get ⟨j, h⟩
      if collides b e then
        let r := takeDamage e (bulletDamage b)
        (if r.2 then es.eraseIdx j else es.set j r.1, true)
      else scanGo b j es
    else scanGo b j es

/-- The whole back-to-front enemy scan for one bullet. -/
def bulletScan (b : Bullet) (es : List Enemy) : List Enemy × Bool :=
  scanGo b es.length es

/-! ### Per-tick passes over shrinking collections

The bullets, pickups and molotovs sections of animate all iterate an index i
from length - 1 down to 0 and may splice the element at i out of the array.
passLoopGo embeds that indexed loop generically: upd returns the updated
element, the threaded state, and whether the element is removed.
passSnapshot processes the same elements back-to-front structurally, as if
over a stable snapshot of the collection. -/

/-- The descending indexed loop: the step for index n reads the live array. -/
def passLoopGo {α σ : Type _} (upd : α → σ → α × σ × Bool) :
    ℕ → List α → σ → List α × σ
  | 0, l, s => (l, s)
  | n + 1, l, s =>
    if h : n < l.length then
      let r := upd (l.get ⟨n, h⟩) s
      if r.2.2 then passLoopGo upd n (l.eraseIdx n) r.2.1
      else passLoopGo upd n (l.set n r.1) r.2.1
    else passLoopGo upd n l s

/-- The full descending pass, starting at the last index. -/
def passLoop {α σ : Type _} (upd : α → σ → α × σ × Bool) (l : List α) (s : σ) :
    List α × σ :=
  passLoopGo upd l.length l s

/-- The same elements processed back-to-front over a stable snapshot: the
tail (the higher indices) is processed first, then the head. -/
def passSnapshot {α σ : Type _} (upd : α → σ → α × σ × Bool) :
    List α → σ → List α × σ
  | [], s => ([], s)
  | a :: l, s =>
    let p := passSnapshot upd l s
    let r := upd a p.2
    if r.2.2 then (p.1, r.2.1) else (r.1 :: p.1, r.2.1)

/-- The per-bullet step of the UPDATE BULLETS loop: the bullet is first
moved by bullet.update(delta), then scanned against the enemies; a hit
removes the bullet. -/
def bulletPassUpd (delta : ℚ) (b : Bullet) (es : List Enemy) :
    Bullet × List Enemy × Bool :=
  let bu := bulletUpdate delta b
  let r := bulletScan bu es
  (bu, r.1, r.2)

/-- The UPDATE BULLETS section: descending loop over the bullets, threading
the shared enemies list. -/
def bulletsLoop (delta : ℚ) (bullets : List Bullet) (enemies : List Enemy) :
    List Bullet × List Enemy :=
  passLoop (bulletPassUpd delta) bullets enemies

/-- The UPDATE PICKUPS section: descending loop; heart.update(delta) may
move the pickup and reports whether it was collected, and a collected pickup
is spliced out.  The update behaviour itself lives outside src and is a
parameter. -/
def pickupsLoop {α : Type _} (upd : α → α × Bool) (pickups : List α) : List α :=
  (passLoop (fun a u => ((upd a).1, u, (upd a).2)) pickups ()).1

/-- The snapshot counterpart of pickupsLoop. -/
def pickupsSnapshot {α : Type _} (upd : α → α × Bool) (pickups : List α) : List α :=
  (passSnapshot (fun a u => ((upd a).1, u, (upd a).2)) pickups ()).1

/-- The UPDATE MOLOTOVS section: descending loop; each molotov receives the
live enemies list, m.update(delta) may mutate it and reports whether the
molotov is spent, and a spent molotov is spliced out.  The molotov update
lives outside src and is a parameter. -/
def molotovsLoop {α : Type _} (upd : α → List Enemy → α × List Enemy × Bool)
    (molotovs : List α) (enemies : List Enemy) : List α × List Enemy :=
  passLoop upd molotovs enemies

/-! ### The knife attack (onKnifeHit in initGameState) -/

/-- knifeRange = 10 in the onKnifeHit callback. -/
def knifeRange : ℚ := 10

/-- The 0.5 factor of knockback = damage * 0.5. -/
def knockbackCoefficient : ℚ := 1 / 2

/-- The knockback velocity delta of the source: toEnemy is normalised, its
vertical component is zeroed, the result is normalised again, and the unit
direction is scaled by knockback / enemy.mass with knockback =
damage * 0.5. -/
noncomputable def knockbackDelta (toEnemy : Vec3) (damage mass : ℚ) : RVec3 :=
  let dir := ((toEnemy.toR.normalize).setY0).normalize
  RVec3.smul (((damage * knockbackCoefficient / mass : ℚ) : ℝ)) dir

/-- The body of the forEach in onKnifeHit, for one enemy: the distance test
(the source compares the Euclidean length with knifeRange; both sides are
non-negative, so this is the squared comparison, lemma
dist_lt_iff_lengthSq_lt), then the facing test (the source dots the forward
vector with the normalised toEnemy; scaling by the positive inverse length
does not change the sign, lemma dot_normalize_pos_iff).  A hit applies
takeDamage; a dead enemy is removed (none), a surviving one gets the
knockback velocity delta added. -/
noncomputable def processEnemy (p forward : Vec3) (damage : ℚ) (e : Enemy) :
    Option Enemy :=
  let toEnemy := e.pos.sub p
  if toEnemy.lengthSq < knifeRange ^ 2 then
    if 0 < forward.dot toEnemy then
      let r := takeDamage e damage
      if r.2 then none
      else some { r.1 with
                    velocity := r.1.velocity.add (knockbackDelta toEnemy damage e.mass) }
    else some e
  else some e

/-- The forEach of onKnifeHit over the live enemies array: JavaScript
forEach fixes the length before the first callback, walks the indices
upward, skips an index that no longer exists, and otherwise reads the live
(possibly already spliced) array.  The first argument is the number of
indices still to visit, the second the next index. -/
noncomputable def knifeGo (p forward : Vec3) (damage : ℚ) :
    ℕ → ℕ → List Enemy → List Enemy
  | 0, _, live => live
  | n + 1, k, live =>
    if h : k < live.length then
      match processEnemy p forward damage (live.get ⟨k, h⟩) with
      | none => knifeGo p forward damage n (k + 1) (live.eraseIdx k)
      | some e2 => knifeGo p forward damage n (k + 1) (live.set k e2)
    else knifeGo p forward damage n (k + 1) live

/-- The whole onKnifeHit callback over the enemies collection. -/
noncomputable def onKnifeHit (p forward : Vec3) (damage : ℚ)
    (enemies : List Enemy) : List Enemy :=
  knifeGo p forward damage enemies.length 0 enemies

/-! ### The per-frame tick (animate)

The components whose update code lives outside src (player, camera, spawner,
turret entities, pickups, molotovs, potion) are carried at abstract types and
their per-tick updates are parameters; the passes implemented inside Game.js
(bullets, pickups, molotovs) use the loop models above. -/

/-- The game state the animate tick reads and writes. -/
structure AnimState (P C S T K M Po : Type) where
  paused : Bool
  isGameOver : Bool
  hasPlayerMesh : Bool
  player : P
  camera : C
  spawner : S
  enemies : List Enemy
  bullets : List Bullet
  pickups : List K
  turrets : List T
  molotovs : List M
  potion : Option Po

/-- One invocation of animate.  The boolean output records whether the frame
was rendered.  A paused frame renders and returns; a game-over frame renders
and returns; a frame before the player mesh is loaded returns without
rendering; otherwise the update pipeline runs in source order: player,
enemy spawner and enemy loop, bullets, pickups, camera, turrets, molotovs,
potion, mana regeneration, then the render.  The enemy loop also damages the
player (player.takeDamage in the attack branch), which is the tick's path to
onPlayerDeath, the one writer of isGameOver: the enemy-section parameter
therefore also returns whether the player died this tick, and that flag is
ORed into isGameOver (onPlayerDeath only ever sets it). -/
noncomputable def animate {P C S T K M Po : Type}
    (delta : ℚ)
    (playerUpd : P → P)
    (enemySec : S → List Enemy → P → S × List Enemy × P × Bool)
    (pickupUpd : K → K × Bool)
    (camUpd : C → P → C)
    (turretUpd : T → T)
    (molotovUpd : M → List Enemy → M × List Enemy × Bool)
    (potionUpd : Po → Option Po)
    (regenMana : P → P)
    (s : AnimState P C S T K M Po) : AnimState P C S T K M Po × Bool :=
  if s.paused then (s, true)
  else if s.isGameOver then (s, true)
  else if s.hasPlayerMesh = false then (s, false)
  else
    let p1 := playerUpd s.player
    let esec := enemySec s.spawner s.enemies p1
    let bl := bulletsLoop delta s.bullets esec.2.1
    let pk := pickupsLoop pickupUpd s.pickups
    let cam := camUpd s.camera esec.2.2.1
    let ts := s.turrets.map turretUpd
    let ml := molotovsLoop molotovUpd s.molotovs bl.2
    let po := s.potion.bind potionUpd
    let p2 := regenMana esec.2.2.1
    ({ s with player := p2, camera := cam, spawner := esec.1,
              enemies := ml.2, bullets := bl.1, pickups := pk,
              turrets := ts, molotovs := ml.1, potion := po,
              isGameOver := s.isGameOver || esec.2.2.2 }, true)

/-! ### Basic facts and bridges between squared comparisons and distances -/

theorem Vec3.lengthSq_nonneg (v : Vec3) : 0 ≤ v.lengthSq := by
  have hx := mul_self_nonneg v.x
  have hy := mul_self_nonneg v.y
  have hz := mul_self_nonneg v.z
  unfold Vec3.lengthSq
  linarith

theorem Vec3.distanceToSquared_nonneg (a b : Vec3) : 0 ≤ a.distanceToSquared b :=
  Vec3.lengthSq_nonneg _

/-- A non-negative rational bound is below the square root of a non-negative
squared quantity exactly when its square is below the quantity: the form in
which the source replaces distance comparisons by squared comparisons. -/
theorem rat_le_sqrt_iff (a d : ℚ) (ha : 0 ≤ a) (hd : 0 ≤ d) :
    ((a : ℝ) ≤ Real.sqrt ((d : ℚ) : ℝ)) ↔ a ^ 2 ≤ d := by
  rw [Real.le_sqrt (by exact_mod_cast ha) (by exact_mod_cast hd)]
  constructor
  · intro h
    exact_mod_cast h
  · intro h
    exact_mod_cast h

theorem rat_lt_sqrt_iff (a d : ℚ) (ha : 0 ≤ a) :
    ((a : ℝ) < Real.sqrt ((d : ℚ) : ℝ)) ↔ a ^ 2 < d := by
  rw [Real.lt_sqrt (by exact_mod_cast ha)]
  constructor
  · intro h
    exact_mod_cast h
  · intro h
    exact_mod_cast h

theorem rat_sqrt_lt_iff (d c : ℚ) (hc : 0 < c) :
    (Real.sqrt ((d : ℚ) : ℝ) < (c : ℝ)) ↔ d < c ^ 2 := by
  rw [Real.sqrt_lt' (by exact_mod_cast hc)]
  constructor
  · intro h
    exact_mod_cast h
  · intro h
    exact_mod_cast h

/-! ### Claim C5 -/

/-- isTurretPlacementValid written as one Boolean conjunction of its two
scans (the source returns false from either scan and true otherwise). -/
theorem isTurretPlacementValid_eq_and (sc : List Box3) (ts : List Vec3) (pos : Vec3) :
    isTurretPlacementValid sc ts pos =
      (!(sc.any (fun box => box.intersectsBox (turretBB pos))) &&
       !(ts.any (fun t => decide (t.distanceToSquared pos < (TURRET_RADIUS * 2) ^ 2)))) := by
  unfold isTurretPlacementValid
  cases h1 : sc.any (fun box => box.intersectsBox (turretBB pos)) <;>
    cases h2 : ts.any (fun t => decide (t.distanceToSquared pos < (TURRET_RADIUS * 2) ^ 2)) <;>
    simp [h1, h2]

/-- C5: isTurretPlacementValid(pos) returns true if and only if the flat
turret footprint box around pos intersects no box in staticColliders and
every existing turret is at distance at least 2 * TURRET_RADIUS from pos.
The embedding is a pure function of the collider and turret lists, matching
the source, which only reads state. -/
theorem c5_isTurretPlacementValid_iff (sc : List Box3) (ts : List Vec3) (pos : Vec3) :
    isTurretPlacementValid sc ts pos = true ↔
      ((∀ b ∈ sc, b.intersectsBox (turretBB pos) = false) ∧
       ∀ t ∈ ts, ((2 * TURRET_RADIUS : ℚ) : ℝ) ≤
         Real.sqrt ((t.distanceToSquared pos : ℚ) : ℝ)) := by
  have hbridge : ∀ t : Vec3,
      (((2 * TURRET_RADIUS : ℚ) : ℝ) ≤ Real.sqrt ((t.distanceToSquared pos : ℚ) : ℝ)) ↔
        ¬ (t.distanceToSquared pos < (TURRET_RADIUS * 2) ^ 2) := by
    intro t
    rw [rat_le_sqrt_iff _ _ (by norm_num [TURRET_RADIUS]) (Vec3.distanceToSquared_nonneg _ _)]
    constructor
    · intro h
      rw [not_lt]
      calc (TURRET_RADIUS * 2) ^ 2 = (2 * TURRET_RADIUS) ^ 2 := by ring
        _ ≤ _ := h
    · intro h
      rw [not_lt] at h
      calc (2 * TURRET_RADIUS) ^ 2 = (TURRET_RADIUS * 2) ^ 2 := by ring
        _ ≤ _ := h
  rw [isTurretPlacementValid_eq_and]
  rw [Bool.and_eq_true, Bool.not_eq_true', Bool.not_eq_true',
      List.any_eq_false, List.any_eq_false]
  apply and_congr
  · constructor
    · intro h b hb
      have := h b hb
      simpa using this
    · intro h b hb
      simp [h b hb]
  · constructor
    · intro h t ht
      rw [hbridge t]
      intro hlt
      exact h t ht (by simpa using hlt)
    · intro h t ht hdec
      exact ((hbridge t).mp (h t ht)) (by simpa using hdec)

/-! ### Claim C10 -/

/-- C10: committing a turret never mutates the static collision world: the
commit handler leaves staticColliders and the baked grid unchanged and at
most appends the new turret to the turrets array; the pathfinding grid is
exactly the bake of staticColliders performed by initPathfinding at world
build; and a committed turret constrains a later placement only through the
squared-distance spacing test added for it in isTurretPlacementValid. -/
theorem c10_commit_never_mutates_static_world :
    (∀ s pos, (commitTurret s pos).1.staticColliders = s.staticColliders ∧
              (commitTurret s pos).1.grid = s.grid ∧
              ((commitTurret s pos).1.turrets = s.turrets ∨
               (commitTurret s pos).1.turrets = s.turrets ++ [pos])) ∧
    (∀ s, (initPathfinding s).grid = bakeGrid s.staticColliders) ∧
    (∀ sc ts t pos, isTurretPlacementValid sc (ts ++ [t]) pos =
       (isTurretPlacementValid sc ts pos &&
        !(decide (t.distanceToSquared pos < (TURRET_RADIUS * 2) ^ 2)))) := by
  refine ⟨?_, ?_, ?_⟩
  · intro s pos
    unfold commitTurret
    cases hv : isTurretPlacementValid s.staticColliders s.turrets pos <;>
      rcases hr : spendMana s.mana turretCost with ⟨m, b⟩ <;> cases b <;>
      simp [hr]
  · intro s
    rfl
  · intro sc ts t pos
    rw [isTurretPlacementValid_eq_and, isTurretPlacementValid_eq_and]
    simp only [List.any_append, List.any_cons, List.any_nil, Bool.or_false]
    cases sc.any (fun box => box.intersectsBox (turretBB pos)) <;>
      cases ts.any (fun u => decide (u.distanceToSquared pos < (TURRET_RADIUS * 2) ^ 2)) <;>
      cases decide (t.distanceToSquared pos < (TURRET_RADIUS * 2) ^ 2) <;> rfl

/-! ### Claim C7 -/

/-- C7: a turret commit at an invalid position is rejected with no state
mutation and without ever calling spendMana (the && short-circuits); a
commit with insufficient mana leaves the whole commit state unchanged (no
turret, no token spent, no mana spent). -/
theorem c7_invalid_commit_rejected (s : CommitState) (pos : Vec3) :
    (isTurretPlacementValid s.staticColliders s.turrets pos = false →
       commitTurret s pos = (s, false)) ∧
    (s.mana < turretCost → (commitTurret s pos).1 = s) := by
  constructor
  · intro h
    unfold commitTurret
    rw [h]
    simp
  · intro h
    unfold commitTurret
    rcases hv : isTurretPlacementValid s.staticColliders s.turrets pos with _ | _
    · simp
    · simp [spendMana, not_le.2 h]

/-- Witness for C7: a concrete state with a collider over the origin rejects
the commit there without calling spendMana, and a concrete valid commit with
mana 10 < 50 leaves the state unchanged. -/
theorem c7_witness :
    (isTurretPlacementValid (CommitState.mk [⟨⟨-10, -10, -10⟩, ⟨10, 10, 10⟩⟩] [] 5 100 []).staticColliders
        (CommitState.mk [⟨⟨-10, -10, -10⟩, ⟨10, 10, 10⟩⟩] [] 5 100 []).turrets ⟨0, 0, 0⟩ = false ∧
     commitTurret (CommitState.mk [⟨⟨-10, -10, -10⟩, ⟨10, 10, 10⟩⟩] [] 5 100 []) ⟨0, 0, 0⟩ =
       (CommitState.mk [⟨⟨-10, -10, -10⟩, ⟨10, 10, 10⟩⟩] [] 5 100 [], false)) ∧
    ((CommitState.mk [] [] 5 10 []).mana < turretCost ∧
     (commitTurret (CommitState.mk [] [] 5 10 []) ⟨0, 0, 0⟩).1 = CommitState.mk [] [] 5 10 []) :=
  ⟨⟨by norm_num [isTurretPlacementValid_eq_and, turretBB, TURRET_RADIUS, Box3.intersectsBox],
    (c7_invalid_commit_rejected _ _).1
      (by norm_num [isTurretPlacementValid_eq_and, turretBB, TURRET_RADIUS, Box3.intersectsBox])⟩,
   ⟨by norm_num [turretCost],
    (c7_invalid_commit_rejected _ _).2 (by norm_num [turretCost])⟩⟩

/-! ### Claim C1 -/

/-- C1 (amended): an instance committed by the scatter placement loops
(rocks and fences) intersects no previously registered collider and lies
strictly outside the reserved clearance radius around the player spawn; a
turret accepted by the interactive commit intersects no registered collider
and keeps the required spacing from existing turrets, but no player
clearance is checked for turrets. -/
theorem c1_no_overlap_invariant :
    (∀ colliders c, scatterAccept colliders c = true →
       (∀ b ∈ colliders, b.intersectsBox c.box = false) ∧
       ((reservedRadius : ℚ) : ℝ) <
         Real.sqrt (((c.pos.setY0).distanceToSquared playerSpawnPos : ℚ) : ℝ)) ∧
    (∀ sc ts pos, isTurretPlacementValid sc ts pos = true →
       (∀ b ∈ sc, b.intersectsBox (turretBB pos) = false) ∧
       (∀ t ∈ ts, (TURRET_RADIUS * 2) ^ 2 ≤ t.distanceToSquared pos)) := by
  constructor
  · intro colliders c h
    unfold scatterAccept at h
    simp only [Bool.not_eq_true', Bool.or_eq_false_iff, Bool.not_eq_false',
      List.any_eq_false, decide_eq_true_eq, gt_iff_lt] at h
    obtain ⟨hclear, hany⟩ := h
    constructor
    · intro b hb
      simpa using hany b hb
    · rw [rat_lt_sqrt_iff _ _ (by norm_num [reservedRadius])]
      have hrr : reservedRadius ^ 2 = reservedRadiusSq := rfl
      rw [hrr]
      exact hclear
  · intro sc ts pos h
    rw [isTurretPlacementValid_eq_and, Bool.and_eq_true, Bool.not_eq_true',
        Bool.not_eq_true', List.any_eq_false, List.any_eq_false] at h
    obtain ⟨h1, h2⟩ := h
    refine ⟨fun b hb => by simpa using h1 b hb, fun t ht => ?_⟩
    have := h2 t ht
    simp only [decide_eq_true_eq] at this
    exact not_lt.mp this

/-- Counterexample for C1 as stated: with no colliders and no turrets, the
pointerup commit accepts a turret placed exactly at the player spawn point,
whose position is not strictly outside the reserved clearance radius. -/
theorem c1_counterexample :
    (commitTurret (CommitState.mk [] [] 5 100 []) ⟨0, 0, 0⟩).1.turrets = [⟨0, 0, 0⟩] ∧
    ¬ (reservedRadiusSq <
        ((⟨0, 0, 0⟩ : Vec3).setY0).distanceToSquared playerSpawnPos) := by
  constructor
  · norm_num [commitTurret, isTurretPlacementValid, spendMana, turretCost]
  · norm_num [reservedRadiusSq, reservedRadius, Vec3.setY0, Vec3.distanceToSquared,
      Vec3.lengthSq, Vec3.sub, playerSpawnPos]

/-- Witness for C1 (amended), at concrete inputs: an accepted scatter
candidate far from the spawn, and an accepted turret placement. -/
theorem c1_witness :
    (scatterAccept [] ⟨⟨100, 0, 100⟩, ⟨⟨99, -1, 99⟩, ⟨101, 3, 101⟩⟩⟩ = true ∧
     ((∀ b ∈ ([] : List Box3),
         b.intersectsBox (⟨⟨99, -1, 99⟩, ⟨101, 3, 101⟩⟩ : Box3) = false) ∧
      ((reservedRadius : ℚ) : ℝ) <
        Real.sqrt ((((⟨100, 0, 100⟩ : Vec3).setY0).distanceToSquared playerSpawnPos : ℚ) : ℝ))) ∧
    (isTurretPlacementValid [] [] ⟨100, 0, 100⟩ = true ∧
     ((∀ b ∈ ([] : List Box3), b.intersectsBox (turretBB ⟨100, 0, 100⟩) = false) ∧
      (∀ t ∈ ([] : List Vec3),
         (TURRET_RADIUS * 2) ^ 2 ≤ t.distanceToSquared ⟨100, 0, 100⟩))) := by
  have hacc : scatterAccept [] ⟨⟨100, 0, 100⟩, ⟨⟨99, -1, 99⟩, ⟨101, 3, 101⟩⟩⟩ = true := by
    norm_num [scatterAccept, playerSpawnPos, reservedRadiusSq, reservedRadius,
      Vec3.setY0, Vec3.distanceToSquared, Vec3.lengthSq, Vec3.sub]
  have hval : isTurretPlacementValid [] [] ⟨100, 0, 100⟩ = true := by
    norm_num [isTurretPlacementValid]
  refine ⟨⟨hacc, ?_⟩, ⟨hval, ?_⟩⟩
  · exact c1_no_overlap_invariant.1 [] ⟨⟨100, 0, 100⟩, ⟨⟨99, -1, 99⟩, ⟨101, 3, 101⟩⟩⟩ hacc
  · exact c1_no_overlap_invariant.2 [] [] ⟨100, 0, 100⟩ hval

/-! ### Claim C6 -/

/-- If every candidate of the attempt list fails the acceptance test, the
attempt loop returns the collider list unchanged. -/
theorem tryPlaceScatter_of_all_fail (colliders : List Box3) :
    ∀ l : List ScatterCand, (∀ c ∈ l, scatterAccept colliders c = false) →
      tryPlaceScatter colliders l = colliders := by
  intro l
  induction l with
  | nil => intro _; rfl
  | cons c rest ih =>
    intro h
    unfold tryPlaceScatter
    rw [h c (List.mem_cons_self c rest)]
    simp only [Bool.false_eq_true, if_false]
    exact ih (fun c2 hc2 => h c2 (List.mem_cons_of_mem c hc2))

/-- C6: when all (at most maxAttempts) sampled candidates for one scattered
prop fail the validity test, that instance is silently skipped: the attempt
loop terminates with staticColliders unchanged, and the placement loops for
rocks and fences continue with the remaining instances exactly as if the
skipped instance had not been requested. -/
theorem c6_exhausted_attempts_skip (colliders : List Box3) (cands : List ScatterCand)
    (rest : List (List ScatterCand))
    (h : ∀ c ∈ cands.take maxAttempts, scatterAccept colliders c = false) :
    tryPlaceScatter colliders (cands.take maxAttempts) = colliders ∧
    loadStaticRocks colliders (cands :: rest) = loadStaticRocks colliders rest ∧
    loadStaticFences colliders (cands :: rest) = loadStaticFences colliders rest := by
  have h1 := tryPlaceScatter_of_all_fail colliders _ h
  refine ⟨h1, ?_, ?_⟩
  · simp only [loadStaticRocks]
    rw [h1]
  · simp only [loadStaticFences]
    rw [h1]

/-- Witness for C6: a region entirely covered by one huge collider rejects
the single candidate, the instance is skipped, and the build continues. -/
theorem c6_witness :
    (∀ c ∈ ([⟨⟨1, 0, 1⟩, ⟨⟨0, -1, 0⟩, ⟨2, 3, 2⟩⟩⟩] : List ScatterCand).take maxAttempts,
       scatterAccept [⟨⟨-300, -300, -300⟩, ⟨300, 300, 300⟩⟩] c = false) ∧
    (tryPlaceScatter [⟨⟨-300, -300, -300⟩, ⟨300, 300, 300⟩⟩]
        (([⟨⟨1, 0, 1⟩, ⟨⟨0, -1, 0⟩, ⟨2, 3, 2⟩⟩⟩] : List ScatterCand).take maxAttempts) =
       [⟨⟨-300, -300, -300⟩, ⟨300, 300, 300⟩⟩] ∧
     loadStaticRocks [⟨⟨-300, -300, -300⟩, ⟨300, 300, 300⟩⟩]
        [[⟨⟨1, 0, 1⟩, ⟨⟨0, -1, 0⟩, ⟨2, 3, 2⟩⟩⟩]] =
       loadStaticRocks [⟨⟨-300, -300, -300⟩, ⟨300, 300, 300⟩⟩] [] ∧
     loadStaticFences [⟨⟨-300, -300, -300⟩, ⟨300, 300, 300⟩⟩]
        [[⟨⟨1, 0, 1⟩, ⟨⟨0, -1, 0⟩, ⟨2, 3, 2⟩⟩⟩]] =
       loadStaticFences [⟨⟨-300, -300, -300⟩, ⟨300, 300, 300⟩⟩] []) := by
  have hh : ∀ c ∈ ([⟨⟨1, 0, 1⟩, ⟨⟨0, -1, 0⟩, ⟨2, 3, 2⟩⟩⟩] : List ScatterCand).take maxAttempts,
      scatterAccept [⟨⟨-300, -300, -300⟩, ⟨300, 300, 300⟩⟩] c = false := by
    intro c hc
    simp only [maxAttempts, List.take_succ_cons, List.take_nil, List.mem_singleton] at hc
    subst hc
    norm_num [scatterAccept, playerSpawnPos, reservedRadiusSq, reservedRadius,
      Vec3.setY0, Vec3.distanceToSquared, Vec3.lengthSq, Vec3.sub, Box3.intersectsBox]
  exact ⟨hh, c6_exhausted_attempts_skip _ _ _ hh⟩

/-! ### Loop and snapshot agreement (the back-to-front passes) -/

/-- A descending pass that only ever touches indices below n does not
disturb an element appended past them. -/
theorem passLoopGo_append {α σ : Type _} (upd : α → σ → α × σ × Bool) (b : α) :
    ∀ (n : ℕ) (l : List α) (s : σ), n ≤ l.length →
      passLoopGo upd n (l ++ [b]) s =
        ((passLoopGo upd n l s).1 ++ [b], (passLoopGo upd n l s).2) := by
  intro n
  induction n with
  | zero => intro l s _; simp [passLoopGo]
  | succ n ih =>
    intro l s hn
    have hlt : n < l.length := hn
    have hlt2 : n < (l ++ [b]).length := by simp; omega
    unfold passLoopGo
    rw [dif_pos hlt2, dif_pos hlt]
    have hget : (l ++ [b]).get ⟨n, hlt2⟩ = l.get ⟨n, hlt⟩ := by
      simp only [List.get_eq_getElem]
      exact List.getElem_append_left _
    rw [hget]
    rcases hupd : upd (l.get ⟨n, hlt⟩) s with ⟨a2, s2, rem⟩
    dsimp only
    cases rem
    · rw [if_neg (by simp), if_neg (by simp)]
      have hset : (l ++ [b]).set n a2 = l.set n a2 ++ [b] := by
        rw [List.set_append_left]
        exact hlt
      rw [hset]
      exact ih (l.set n a2) s2 (by rw [List.length_set]; omega)
    · rw [if_pos rfl, if_pos rfl]
      have herase : (l ++ [b]).eraseIdx n = l.eraseIdx n ++ [b] :=
        List.eraseIdx_append_of_lt_length hlt [b]
      rw [herase]
      refine ih (l.eraseIdx n) s2 ?_
      rw [List.length_eraseIdx]
      simp only [if_pos hlt]
      omega

/-- Processing a list with one more element at the back first processes that
element (the snapshot recursion peels the last element first). -/
theorem passSnapshot_concat {α σ : Type _} (upd : α → σ → α × σ × Bool) (b : α) :
    ∀ (l : List α) (s : σ),
      passSnapshot upd (l ++ [b]) s =
        (if (upd b s).2.2 then passSnapshot upd l (upd b s).2.1
         else ((passSnapshot upd l (upd b s).2.1).1 ++ [(upd b s).1],
               (passSnapshot upd l (upd b s).2.1).2)) := by
  intro l
  induction l with
  | nil =>
    intro s
    simp only [List.nil_append, passSnapshot]
  | cons a l ih =>
    intro s
    simp only [List.cons_append, passSnapshot, List.append_eq]
    rw [ih]
    rcases hupd : upd b s with ⟨b2, s2, rem⟩
    dsimp only
    cases rem
    · simp only [Bool.false_eq_true, if_false]
      rcases hupd2 : upd a (passSnapshot upd l s2).2 with ⟨a2, s3, rem2⟩
      dsimp only
      cases rem2 <;> simp
    · simp

/-- The faithful descending indexed loop with in-place splicing computes the
same result as the back-to-front pass over a stable snapshot: no element is
skipped or visited twice. -/
theorem passLoop_eq_passSnapshot {α σ : Type _} (upd : α → σ → α × σ × Bool) :
    ∀ (l : List α) (s : σ), passLoop upd l s = passSnapshot upd l s := by
  intro l
  induction l using List.reverseRecOn with
  | nil => intro s; rfl
  | append_singleton l b ih =>
    intro s
    rw [passSnapshot_concat]
    unfold passLoop
    have hlen : (l ++ [b]).length = l.length + 1 := by simp
    rw [hlen]
    unfold passLoopGo
    have hlt : l.length < (l ++ [b]).length := by simp
    rw [dif_pos hlt]
    have hget : (l ++ [b]).get ⟨l.length, hlt⟩ = b := by
      simp only [List.get_eq_getElem]
      exact List.getElem_concat_length l b l.length rfl _
    rw [hget]
    dsimp only
    cases hrem : (upd b s).2.2
    · rw [if_neg (by simp), if_neg (by simp)]
      have hset : (l ++ [b]).set l.length (upd b s).1 = l ++ [(upd b s).1] := by
        rw [List.set_append_right _ _ (le_refl l.length)]
        simp
      rw [hset, passLoopGo_append upd _ l.length l _ (le_refl l.length)]
      rw [show passLoopGo upd l.length l (upd b s).2.1 = passLoop upd l (upd b s).2.1 from rfl]
      rw [ih]
    · rw [if_pos rfl, if_pos rfl]
      have herase : (l ++ [b]).eraseIdx l.length = l := by
        rw [List.eraseIdx_append_of_length_le (le_refl l.length)]
        simp
      rw [herase]
      rw [show passLoopGo upd l.length l (upd b s).2.1 = passLoop upd l (upd b s).2.1 from rfl]
      rw [ih]

/-! ### Claim C8 -/

/-- C8 (amended): the per-tick passes that shrink their own collection and
iterate back-to-front (bullets with their per-enemy scans, pickups, and
molotovs) are equivalent to processing a stable snapshot, so an in-place
removal never skips or revisits an element there; the knife-hit handler,
however, iterates the enemy array forward with forEach while removing dead
enemies, and the counterexample shows an enemy being skipped. -/
theorem c8_backward_passes_no_skip :
    (∀ (delta : ℚ) (bullets : List Bullet) (enemies : List Enemy),
       bulletsLoop delta bullets enemies =
         passSnapshot (bulletPassUpd delta) bullets enemies) ∧
    (∀ {α : Type} (upd : α → α × Bool) (pickups : List α),
       pickupsLoop upd pickups = pickupsSnapshot upd pickups) ∧
    (∀ {α : Type} (upd : α → List Enemy → α × List Enemy × Bool)
       (molotovs : List α) (enemies : List Enemy),
       molotovsLoop upd molotovs enemies = passSnapshot upd molotovs enemies) := by
  refine ⟨?_, ?_, ?_⟩
  · intro delta bullets enemies
    exact passLoop_eq_passSnapshot _ bullets enemies
  · intro α upd pickups
    unfold pickupsLoop pickupsSnapshot
    rw [passLoop_eq_passSnapshot]
  · intro α upd molotovs enemies
    exact passLoop_eq_passSnapshot _ molotovs enemies

/-! ### Claim C2 -/

/-- Scanning past a non-colliding top index leaves the scan unchanged. -/
theorem scanGo_succ_not_collides (b : Bullet) (n : ℕ) (es : List Enemy)
    (h : n < es.length) (hc : collides b (es.get ⟨n, h⟩) = false) :
    scanGo b (n + 1) es = scanGo b n es := by
  rw [scanGo]
  rw [dif_pos h]
  simp only [hc, Bool.false_eq_true, if_false]

/-- The scan from above index j down to j agrees with starting at j when
every index above j is non-colliding. -/
theorem scanGo_enter_range (b : Bullet) (es : List Enemy) (j : ℕ) :
    ∀ m : ℕ, j + 1 + m ≤ es.length →
      (∀ i (hi : i < es.length), j < i → collides b (es.get ⟨i, hi⟩) = false) →
      scanGo b (j + 1 + m) es = scanGo b (j + 1) es := by
  intro m
  induction m with
  | zero => intro _ _; rfl
  | succ m ih =>
    intro hle hall
    have hn : j + 1 + m < es.length := by omega
    have hstep : scanGo b (j + 1 + m + 1) es = scanGo b (j + 1 + m) es :=
      scanGo_succ_not_collides b (j + 1 + m) es hn (hall _ hn (by omega))
    rw [show j + 1 + (m + 1) = j + 1 + m + 1 from rfl, hstep]
    exact ih (by omega) hall

/-- C2: when a bullet collides with an enemy (its distance to the enemy is
below the sum of the radii, embedded as the squared comparison with the
bridging iff as third conjunct), the damage applied is bullet.damage when
the override is set and 0.5 * mass * lengthSq(velocity) * 0.02 otherwise,
computed from the squared speed; the scan applies exactly that damage to the
hit enemy (the highest-index colliding one, since the scan is back-to-front)
and reports the hit, upon which the outer loop removes the bullet. -/
theorem c2_bullet_damage_and_removal :
    (∀ (b : Bullet) (d : ℚ), b.damage = some d → bulletDamage b = d) ∧
    (∀ b : Bullet, b.damage = none →
       bulletDamage b = (1 / 2) * b.mass * b.velocity.lengthSq * damageScale) ∧
    (∀ (b : Bullet) (e : Enemy), 0 ≤ b.radius + e.radius →
       (collides b e = true ↔
         Real.sqrt ((b.pos.distanceToSquared e.pos : ℚ) : ℝ) <
           ((b.radius + e.radius : ℚ) : ℝ))) ∧
    (∀ (b : Bullet) (es : List Enemy) (j : ℕ) (hj : j < es.length),
       collides b (es.get ⟨j, hj⟩) = true →
       (∀ i (hi : i < es.length), j < i → collides b (es.get ⟨i, hi⟩) = false) →
       bulletScan b es =
         (if (takeDamage (es.get ⟨j, hj⟩) (bulletDamage b)).2 then es.eraseIdx j
          else es.set j (takeDamage (es.get ⟨j, hj⟩) (bulletDamage b)).1, true)) ∧
    (∀ (delta : ℚ) (b : Bullet) (bs : List Bullet) (es : List Enemy),
       (bulletScan (bulletUpdate delta b) (bulletsLoop delta bs es).2).2 = true →
       (bulletsLoop delta (b :: bs) es).1 = (bulletsLoop delta bs es).1) := by
  refine ⟨?_, ?_, ?_, ?_, ?_⟩
  · intro b d h
    unfold bulletDamage
    rw [h]
    rfl
  · intro b h
    unfold bulletDamage
    rw [h]
    rfl
  · intro b e hre
    rcases hre.lt_or_eq with hlt | heq
    · unfold collides
      simp only [decide_eq_true_eq]
      rw [rat_sqrt_lt_iff _ _ hlt]
    · unfold collides
      simp only [decide_eq_true_eq]
      constructor
      · intro h
        exfalso
        have hnn := Vec3.distanceToSquared_nonneg b.pos e.pos
        rw [← heq] at h
        simp at h
        linarith
      · intro h
        exfalso
        have hs := Real.sqrt_nonneg ((b.pos.distanceToSquared e.pos : ℚ) : ℝ)
        rw [← heq] at h
        push_cast at h
        linarith
  · intro b es j hj hcoll hafter
    unfold bulletScan
    have hlen : es.length = j + 1 + (es.length - j - 1) := by omega
    conv_lhs => rw [hlen]
    rw [scanGo_enter_range b es j (es.length - j - 1) (by omega) hafter]
    rw [scanGo]
    rw [dif_pos hj]
    simp only [hcoll]
    simp only [if_true]
  · intro delta b bs es h
    unfold bulletsLoop at h ⊢
    rw [passLoop_eq_passSnapshot] at h
    rw [passLoop_eq_passSnapshot, passLoop_eq_passSnapshot]
    rw [passSnapshot]
    simp only [bulletPassUpd] at h ⊢
    simp only [h, if_true]

/-- Witness for C2: a bullet of mass 1 and speed 10 with no override
(kinetic-energy damage 1) hits the single enemy in range and the scan
applies exactly that damage and reports the hit. -/
theorem c2_witness :
    collides ⟨⟨0, 0, 0⟩, ⟨10, 0, 0⟩, 1, 1, none⟩
        (([⟨⟨1, 0, 0⟩, ⟨0, 0, 0⟩, 5, 1, 1⟩] : List Enemy).get ⟨0, by decide⟩) = true ∧
    bulletScan ⟨⟨0, 0, 0⟩, ⟨10, 0, 0⟩, 1, 1, none⟩ [⟨⟨1, 0, 0⟩, ⟨0, 0, 0⟩, 5, 1, 1⟩] =
      (if (takeDamage (([⟨⟨1, 0, 0⟩, ⟨0, 0, 0⟩, 5, 1, 1⟩] : List Enemy).get ⟨0, by decide⟩)
             (bulletDamage ⟨⟨0, 0, 0⟩, ⟨10, 0, 0⟩, 1, 1, none⟩)).2
       then ([⟨⟨1, 0, 0⟩, ⟨0, 0, 0⟩, 5, 1, 1⟩] : List Enemy).eraseIdx 0
       else ([⟨⟨1, 0, 0⟩, ⟨0, 0, 0⟩, 5, 1, 1⟩] : List Enemy).set 0
              (takeDamage (([⟨⟨1, 0, 0⟩, ⟨0, 0, 0⟩, 5, 1, 1⟩] : List Enemy).get ⟨0, by decide⟩)
                 (bulletDamage ⟨⟨0, 0, 0⟩, ⟨10, 0, 0⟩, 1, 1, none⟩)).1, true) := by
  have hcoll : collides ⟨⟨0, 0, 0⟩, ⟨10, 0, 0⟩, 1, 1, none⟩
      (([⟨⟨1, 0, 0⟩, ⟨0, 0, 0⟩, 5, 1, 1⟩] : List Enemy).get ⟨0, by decide⟩) = true := by
    norm_num [collides, Vec3.distanceToSquared, Vec3.lengthSq, Vec3.sub, List.get]
  exact ⟨hcoll,
    c2_bullet_damage_and_removal.2.2.2.1 _ _ 0 (by decide) hcoll
      (fun i hi hlt => by
        have hi1 : i < 1 := by simpa using hi
        exact absurd hlt (by omega))⟩

/-- Counterexample for C8 as stated: the knife-hit handler iterates forward
over the live array; with two enemies both in range and both lethally hit,
removing the first shifts the second into its slot and forEach skips it, so
it survives untouched even though processing it would have removed it. -/
theorem c8_counterexample :
    onKnifeHit ⟨0, 0, 0⟩ ⟨0, 0, 1⟩ 10
        [⟨⟨0, 0, 3⟩, ⟨0, 0, 0⟩, 5, 1, 1⟩, ⟨⟨0, 0, 4⟩, ⟨0, 0, 0⟩, 5, 1, 1⟩] =
      [⟨⟨0, 0, 4⟩, ⟨0, 0, 0⟩, 5, 1, 1⟩] ∧
    processEnemy ⟨0, 0, 0⟩ ⟨0, 0, 1⟩ 10 ⟨⟨0, 0, 4⟩, ⟨0, 0, 0⟩, 5, 1, 1⟩ = none := by
  constructor
  · norm_num [onKnifeHit, knifeGo, processEnemy, takeDamage, knifeRange,
      Vec3.sub, Vec3.lengthSq, Vec3.dot, List.get]
  · norm_num [processEnemy, takeDamage, knifeRange, Vec3.sub, Vec3.lengthSq, Vec3.dot]

/-! ### Geometry of normalisation (for the knife claims) -/

theorem RVec3.ext {a b : RVec3} (hx : a.x = b.x) (hy : a.y = b.y)
    (hz : a.z = b.z) : a = b := by
  cases a
  cases b
  simp_all

theorem RVec3.norm_nonneg (v : RVec3) : 0 ≤ v.norm :=
  Real.sqrt_nonneg _

theorem RVec3.norm_smul (c : ℝ) (v : RVec3) :
    (RVec3.smul c v).norm = |c| * v.norm := by
  unfold RVec3.smul RVec3.norm
  dsimp only
  rw [show (c * v.x) ^ 2 + (c * v.y) ^ 2 + (c * v.z) ^ 2 =
      c ^ 2 * (v.x ^ 2 + v.y ^ 2 + v.z ^ 2) from by ring]
  rw [Real.sqrt_mul (sq_nonneg c), Real.sqrt_sq_eq_abs]

theorem RVec3.smul_smul (a b : ℝ) (v : RVec3) :
    RVec3.smul a (RVec3.smul b v) = RVec3.smul (a * b) v := by
  refine RVec3.ext ?_ ?_ ?_ <;> dsimp only [RVec3.smul] <;> ring

theorem RVec3.setY0_smul (a : ℝ) (v : RVec3) :
    (RVec3.smul a v).setY0 = RVec3.smul a (v.setY0) := by
  refine RVec3.ext ?_ ?_ ?_ <;> dsimp only [RVec3.smul, RVec3.setY0] <;> ring

theorem RVec3.normalize_eq (v : RVec3) (h : v.norm ≠ 0) :
    v.normalize = RVec3.smul (1 / v.norm) v := by
  unfold RVec3.normalize
  rw [if_neg h]

theorem RVec3.norm_eq_zero_iff (v : RVec3) :
    v.norm = 0 ↔ v.x = 0 ∧ v.y = 0 ∧ v.z = 0 := by
  unfold RVec3.norm
  rw [Real.sqrt_eq_zero (by positivity)]
  constructor
  · intro h
    refine ⟨?_, ?_, ?_⟩ <;>
      nlinarith [sq_nonneg v.x, sq_nonneg v.y, sq_nonneg v.z]
  · rintro ⟨hx, hy, hz⟩
    rw [hx, hy, hz]
    ring

theorem Vec3.setY0_toR (v : Vec3) :
    (v.setY0).toR = RVec3.mk (v.x : ℝ) 0 (v.z : ℝ) := by
  unfold Vec3.setY0 Vec3.toR
  refine RVec3.ext ?_ ?_ ?_ <;> dsimp only <;> norm_num

theorem RVec3.setY0_toR_comm (v : Vec3) :
    (v.toR).setY0 = (v.setY0).toR := by
  rw [Vec3.setY0_toR]
  unfold Vec3.toR RVec3.setY0
  rfl

theorem dot_toR (f v : Vec3) :
    RVec3.dot f.toR v.toR = ((f.dot v : ℚ) : ℝ) := by
  unfold RVec3.dot Vec3.toR Vec3.dot
  dsimp only
  push_cast
  ring

theorem horiz_norm_pos (v : Vec3) (hh : ¬(v.x = 0 ∧ v.z = 0)) :
    0 < ((v.setY0).toR).norm := by
  rw [Vec3.setY0_toR]
  unfold RVec3.norm
  dsimp only
  rw [Real.sqrt_pos]
  rcases not_and_or.mp hh with hx | hz
  · have hx2 : (v.x : ℝ) ≠ 0 := by exact_mod_cast hx
    nlinarith [mul_self_pos.mpr hx2, sq_nonneg (v.z : ℝ)]
  · have hz2 : (v.z : ℝ) ≠ 0 := by exact_mod_cast hz
    nlinarith [mul_self_pos.mpr hz2, sq_nonneg (v.x : ℝ)]

theorem toR_norm_pos (v : Vec3) (hh : ¬(v.x = 0 ∧ v.z = 0)) :
    0 < (v.toR).norm := by
  unfold RVec3.norm Vec3.toR
  dsimp only
  rw [Real.sqrt_pos]
  rcases not_and_or.mp hh with hx | hz
  · have hx2 : (v.x : ℝ) ≠ 0 := by exact_mod_cast hx
    nlinarith [mul_self_pos.mpr hx2, sq_nonneg (v.y : ℝ), sq_nonneg (v.z : ℝ)]
  · have hz2 : (v.z : ℝ) ≠ 0 := by exact_mod_cast hz
    nlinarith [mul_self_pos.mpr hz2, sq_nonneg (v.x : ℝ), sq_nonneg (v.y : ℝ)]

/-- The two-step normalisation of the source (normalise, zero the vertical
component, normalise again) is the normalisation of the horizontal part,
whenever the horizontal part is non-zero. -/
theorem knockbackDir_eq (v : Vec3) (hh : ¬(v.x = 0 ∧ v.z = 0)) :
    ((v.toR.normalize).setY0).normalize =
      RVec3.smul (1 / ((v.setY0).toR).norm) ((v.setY0).toR) := by
  have hL := toR_norm_pos v hh
  have hH := horiz_norm_pos v hh
  rw [RVec3.normalize_eq _ (ne_of_gt hL)]
  rw [RVec3.setY0_smul, RVec3.setY0_toR_comm]
  have hnorm2 : (RVec3.smul (1 / (v.toR).norm) ((v.setY0).toR)).norm =
      (1 / (v.toR).norm) * ((v.setY0).toR).norm := by
    rw [RVec3.norm_smul, abs_of_pos (by positivity)]
  rw [RVec3.normalize_eq _ (by rw [hnorm2]; positivity)]
  rw [hnorm2, RVec3.smul_smul]
  congr 1
  field_simp
  ring

/-- The knockback delta is a positive multiple of the horizontal offset,
with zero vertical component and magnitude damage * 0.5 / mass. -/
theorem knockbackDelta_spec (v : Vec3) (damage mass : ℚ)
    (hh : ¬(v.x = 0 ∧ v.z = 0)) (hd : 0 < damage) (hm : 0 < mass) :
    (knockbackDelta v damage mass).y = 0 ∧
    (∃ c : ℝ, 0 < c ∧
       knockbackDelta v damage mass = RVec3.smul c ((v.setY0).toR)) ∧
    (knockbackDelta v damage mass).norm =
      ((damage * knockbackCoefficient / mass : ℚ) : ℝ) := by
  have hH := horiz_norm_pos v hh
  have hs : (0:ℝ) < ((damage * knockbackCoefficient / mass : ℚ) : ℝ) := by
    have : (0:ℚ) < damage * knockbackCoefficient / mass := by
      apply div_pos
      · apply mul_pos hd
        norm_num [knockbackCoefficient]
      · exact hm
    exact_mod_cast this
  have hdelta : knockbackDelta v damage mass =
      RVec3.smul (((damage * knockbackCoefficient / mass : ℚ) : ℝ) *
        (1 / ((v.setY0).toR).norm)) ((v.setY0).toR) := by
    unfold knockbackDelta
    rw [knockbackDir_eq v hh, RVec3.smul_smul]
  refine ⟨?_, ?_, ?_⟩
  · rw [hdelta, Vec3.setY0_toR]
    dsimp only [RVec3.smul]
    ring
  · refine ⟨((damage * knockbackCoefficient / mass : ℚ) : ℝ) *
      (1 / ((v.setY0).toR).norm), ?_, hdelta⟩
    positivity
  · rw [hdelta, RVec3.norm_smul, abs_of_pos (by positivity)]
    field_simp
    ring

/-! ### Claim C3 -/

/-- C3: on a knife hit (in range and in the forward half-space) that is not
lethal, the velocity delta added to the enemy is the knockback delta: it has
zero vertical component, it is a positive multiple of the horizontal vector
from the attacker toward the enemy, and its magnitude is
damage * knockbackCoefficient / mass with knockbackCoefficient = 0.5; when
the hit is lethal the enemy is removed and no knockback is applied. -/
theorem c3_knockback_impulse (p f : Vec3) (damage : ℚ) (e : Enemy)
    (hd : 0 < damage) (hm : 0 < e.mass)
    (hdist : (e.pos.sub p).lengthSq < knifeRange ^ 2)
    (hfacing : 0 < f.dot (e.pos.sub p))
    (hhoriz : ¬((e.pos.sub p).x = 0 ∧ (e.pos.sub p).z = 0)) :
    (e.health - damage ≤ 0 → processEnemy p f damage e = none) ∧
    (0 < e.health - damage →
       processEnemy p f damage e =
         some (Enemy.mk e.pos
           (e.velocity.add (knockbackDelta (e.pos.sub p) damage e.mass))
           (max 0 (e.health - damage)) e.mass e.radius) ∧
       (knockbackDelta (e.pos.sub p) damage e.mass).y = 0 ∧
       (∃ c : ℝ, 0 < c ∧
          knockbackDelta (e.pos.sub p) damage e.mass =
            RVec3.smul c (((e.pos.sub p).setY0).toR)) ∧
       (knockbackDelta (e.pos.sub p) damage e.mass).norm =
         ((damage * knockbackCoefficient / e.mass : ℚ) : ℝ)) := by
  constructor
  · intro hle
    simp [processEnemy, takeDamage, hdist, hfacing, hle]
  · intro hedge
    have hnle : ¬(e.health - damage ≤ 0) := not_le.mpr hedge
    have hspec := knockbackDelta_spec (e.pos.sub p) damage e.mass hhoriz hd hm
    refine ⟨?_, hspec.1, hspec.2.1, hspec.2.2⟩
    simp [processEnemy, takeDamage, hdist, hfacing, hnle]

/-- Witness for C3 at concrete inputs: an enemy at offset (3, 1, 4) from the
attacker, mass 1, health 100, hit for 10 damage. -/
theorem c3_witness :
    ((0:ℚ) < 10 ∧ (0:ℚ) < (Enemy.mk ⟨3, 1, 4⟩ ⟨0, 0, 0⟩ 100 1 1).mass ∧
     ((Enemy.mk ⟨3, 1, 4⟩ ⟨0, 0, 0⟩ 100 1 1).pos.sub ⟨0, 0, 0⟩).lengthSq < knifeRange ^ 2 ∧
     0 < Vec3.dot ⟨0, 0, 1⟩ ((Enemy.mk ⟨3, 1, 4⟩ ⟨0, 0, 0⟩ 100 1 1).pos.sub ⟨0, 0, 0⟩) ∧
     ¬(((Enemy.mk ⟨3, 1, 4⟩ ⟨0, 0, 0⟩ 100 1 1).pos.sub ⟨0, 0, 0⟩).x = 0 ∧
       ((Enemy.mk ⟨3, 1, 4⟩ ⟨0, 0, 0⟩ 100 1 1).pos.sub ⟨0, 0, 0⟩).z = 0)) ∧
    (0 < (Enemy.mk ⟨3, 1, 4⟩ ⟨0, 0, 0⟩ 100 1 1).health - 10 →
       processEnemy ⟨0, 0, 0⟩ ⟨0, 0, 1⟩ 10 (Enemy.mk ⟨3, 1, 4⟩ ⟨0, 0, 0⟩ 100 1 1) =
         some (Enemy.mk (Enemy.mk ⟨3, 1, 4⟩ ⟨0, 0, 0⟩ 100 1 1).pos
           ((Enemy.mk ⟨3, 1, 4⟩ ⟨0, 0, 0⟩ 100 1 1).velocity.add
             (knockbackDelta ((Enemy.mk ⟨3, 1, 4⟩ ⟨0, 0, 0⟩ 100 1 1).pos.sub ⟨0, 0, 0⟩) 10
               (Enemy.mk ⟨3, 1, 4⟩ ⟨0, 0, 0⟩ 100 1 1).mass))
           (max 0 ((Enemy.mk ⟨3, 1, 4⟩ ⟨0, 0, 0⟩ 100 1 1).health - 10))
           (Enemy.mk ⟨3, 1, 4⟩ ⟨0, 0, 0⟩ 100 1 1).mass
           (Enemy.mk ⟨3, 1, 4⟩ ⟨0, 0, 0⟩ 100 1 1).radius) ∧
       (knockbackDelta ((Enemy.mk ⟨3, 1, 4⟩ ⟨0, 0, 0⟩ 100 1 1).pos.sub ⟨0, 0, 0⟩) 10
          (Enemy.mk ⟨3, 1, 4⟩ ⟨0, 0, 0⟩ 100 1 1).mass).y = 0 ∧
       (∃ c : ℝ, 0 < c ∧
          knockbackDelta ((Enemy.mk ⟨3, 1, 4⟩ ⟨0, 0, 0⟩ 100 1 1).pos.sub ⟨0, 0, 0⟩) 10
              (Enemy.mk ⟨3, 1, 4⟩ ⟨0, 0, 0⟩ 100 1 1).mass =
            RVec3.smul c
              ((((Enemy.mk ⟨3, 1, 4⟩ ⟨0, 0, 0⟩ 100 1 1).pos.sub ⟨0, 0, 0⟩).setY0).toR)) ∧
       (knockbackDelta ((Enemy.mk ⟨3, 1, 4⟩ ⟨0, 0, 0⟩ 100 1 1).pos.sub ⟨0, 0, 0⟩) 10
          (Enemy.mk ⟨3, 1, 4⟩ ⟨0, 0, 0⟩ 100 1 1).mass).norm =
         ((10 * knockbackCoefficient / (Enemy.mk ⟨3, 1, 4⟩ ⟨0, 0, 0⟩ 100 1 1).mass : ℚ) : ℝ)) := by
  have h1 : (0:ℚ) < 10 := by norm_num
  have h2 : (0:ℚ) < (Enemy.mk (Vec3.mk 3 1 4) ⟨0, 0, 0⟩ 100 1 1).mass := by norm_num
  have h3 : ((Enemy.mk (Vec3.mk 3 1 4) ⟨0, 0, 0⟩ 100 1 1).pos.sub ⟨0, 0, 0⟩).lengthSq <
      knifeRange ^ 2 := by
    norm_num [Vec3.sub, Vec3.lengthSq, knifeRange]
  have h4 : 0 < Vec3.dot ⟨0, 0, 1⟩
      ((Enemy.mk (Vec3.mk 3 1 4) ⟨0, 0, 0⟩ 100 1 1).pos.sub ⟨0, 0, 0⟩) := by
    norm_num [Vec3.sub, Vec3.dot]
  have h5 : ¬(((Enemy.mk (Vec3.mk 3 1 4) ⟨0, 0, 0⟩ 100 1 1).pos.sub ⟨0, 0, 0⟩).x = 0 ∧
      ((Enemy.mk (Vec3.mk 3 1 4) ⟨0, 0, 0⟩ 100 1 1).pos.sub ⟨0, 0, 0⟩).z = 0) := by
    norm_num [Vec3.sub]
  exact ⟨⟨h1, h2, h3, h4, h5⟩,
    (c3_knockback_impulse ⟨0, 0, 0⟩ ⟨0, 0, 1⟩ 10 (Enemy.mk ⟨3, 1, 4⟩ ⟨0, 0, 0⟩ 100 1 1)
      h1 h2 h3 h4 h5).2⟩

/-! ### Claim C4 -/

/-- Whether the knife processing damaged the enemy: a removed enemy was
damaged (lethally), a surviving one exactly when its health dropped. -/
def enemyDamaged (e : Enemy) : Option Enemy → Prop
  | none => True
  | some e2 => e2.health < e.health

/-- The sign of the dot product with the normalised vector (the form the
source computes) agrees with the sign of the plain rational dot product:
normalisation scales by a positive factor, and the zero vector stays zero. -/
theorem dot_normalize_pos_iff (f v : Vec3) :
    (0 < f.dot v) ↔ 0 < RVec3.dot f.toR (RVec3.normalize v.toR) := by
  by_cases h : (v.toR).norm = 0
  · obtain ⟨hx, hy, hz⟩ := (RVec3.norm_eq_zero_iff _).mp h
    have hx2 : (v.x : ℝ) = 0 := hx
    have hy2 : (v.y : ℝ) = 0 := hy
    have hz2 : (v.z : ℝ) = 0 := hz
    have hvx : v.x = 0 := by exact_mod_cast hx2
    have hvy : v.y = 0 := by exact_mod_cast hy2
    have hvz : v.z = 0 := by exact_mod_cast hz2
    unfold RVec3.normalize
    rw [if_pos h]
    simp [Vec3.dot, RVec3.dot, Vec3.toR, hvx, hvy, hvz]
  · rw [RVec3.normalize_eq _ h]
    have hdot : RVec3.dot f.toR (RVec3.smul (1 / (v.toR).norm) v.toR) =
        (1 / (v.toR).norm) * RVec3.dot f.toR v.toR := by
      unfold RVec3.dot RVec3.smul
      dsimp only
      ring
    rw [hdot, dot_toR]
    have hpos : 0 < (v.toR).norm :=
      lt_of_le_of_ne (RVec3.norm_nonneg _) (Ne.symm h)
    constructor
    · intro hq
      have hq2 : (0:ℝ) < ((f.dot v : ℚ) : ℝ) := by exact_mod_cast hq
      exact mul_pos (by positivity) hq2
    · intro hr
      by_contra hn
      push_neg at hn
      have hnr : ((f.dot v : ℚ) : ℝ) ≤ 0 := by exact_mod_cast hn
      nlinarith [one_div_pos.mpr hpos]

/-- C4: on a knife attack, an enemy receives damage if and only if its
distance to the player is below the melee range 10 and the dot product of
the forward vector with the normalised vector toward the enemy is strictly
positive — a forward half-space test with no cone-angle restriction. -/
theorem c4_forward_halfspace_iff (p f : Vec3) (damage : ℚ) (e : Enemy)
    (hd : 0 < damage) :
    enemyDamaged e (processEnemy p f damage e) ↔
      (Real.sqrt (((e.pos.sub p).lengthSq : ℚ) : ℝ) < ((knifeRange : ℚ) : ℝ) ∧
       0 < RVec3.dot f.toR (RVec3.normalize ((e.pos.sub p).toR))) := by
  rw [rat_sqrt_lt_iff _ _ (by norm_num [knifeRange])]
  rw [← dot_normalize_pos_iff]
  by_cases h1 : (e.pos.sub p).lengthSq < knifeRange ^ 2
  · by_cases h2 : 0 < f.dot (e.pos.sub p)
    · by_cases h3 : e.health - damage ≤ 0
      · simp [processEnemy, takeDamage, h1, h2, h3, enemyDamaged]
      · have h4 : 0 < e.health - damage := not_le.mp h3
        simp [processEnemy, takeDamage, h1, h2, h3, enemyDamaged]
        exact ⟨by linarith, hd⟩
    · simp [processEnemy, h1, h2, enemyDamaged]
  · simp [processEnemy, h1, enemyDamaged]

/-- Witness for C4 at a concrete input: an enemy 3 units straight ahead,
knife damage 5. -/
theorem c4_witness :
    (0:ℚ) < 5 ∧
    (enemyDamaged (Enemy.mk ⟨0, 0, 3⟩ ⟨0, 0, 0⟩ 100 1 1)
        (processEnemy ⟨0, 0, 0⟩ ⟨0, 0, 1⟩ 5 (Enemy.mk ⟨0, 0, 3⟩ ⟨0, 0, 0⟩ 100 1 1)) ↔
      (Real.sqrt ((((Enemy.mk ⟨0, 0, 3⟩ ⟨0, 0, 0⟩ 100 1 1).pos.sub
            (⟨0, 0, 0⟩ : Vec3)).lengthSq : ℚ) : ℝ) < ((knifeRange : ℚ) : ℝ) ∧
       0 < RVec3.dot (Vec3.toR ⟨0, 0, 1⟩)
         (RVec3.normalize (((Enemy.mk ⟨0, 0, 3⟩ ⟨0, 0, 0⟩ 100 1 1).pos.sub
            (⟨0, 0, 0⟩ : Vec3)).toR)))) :=
  ⟨by norm_num,
   c4_forward_halfspace_iff ⟨0, 0, 0⟩ ⟨0, 0, 1⟩ 5
     (Enemy.mk ⟨0, 0, 3⟩ ⟨0, 0, 0⟩ 100 1 1) (by norm_num)⟩

/-! ### Claim C9 -/

/-- C9: a paused frame and a game-over frame still render but apply zero
simulation: the tick returns the state unchanged, for every choice of the
component update functions (including enemy sections that kill the player
and set isGameOver mid-tick, as the source can), so player, enemies,
spawner, bullets, pickups, turrets, molotovs, camera and potion are
untouched; and from a game-over state the freeze is permanent: every
iterate of the tick still renders and leaves the whole state unchanged. -/
theorem c9_paused_frame_renders_only {P C S T K M Po : Type}
    (delta : ℚ) (playerUpd : P → P)
    (enemySec : S → List Enemy → P → S × List Enemy × P × Bool)
    (pickupUpd : K → K × Bool) (camUpd : C → P → C) (turretUpd : T → T)
    (molotovUpd : M → List Enemy → M × List Enemy × Bool)
    (potionUpd : Po → Option Po) (regenMana : P → P)
    (s : AnimState P C S T K M Po) :
    ((s.paused = true ∨ s.isGameOver = true) →
       animate delta playerUpd enemySec pickupUpd camUpd turretUpd molotovUpd
         potionUpd regenMana s = (s, true)) ∧
    (s.isGameOver = true → ∀ n : ℕ,
       (fun st => (animate delta playerUpd enemySec pickupUpd camUpd turretUpd
          molotovUpd potionUpd regenMana st).1)^[n] s = s ∧
       (animate delta playerUpd enemySec pickupUpd camUpd turretUpd molotovUpd
          potionUpd regenMana
          ((fun st => (animate delta playerUpd enemySec pickupUpd camUpd turretUpd
             molotovUpd potionUpd regenMana st).1)^[n] s)).2 = true) := by
  have hret : ∀ st : AnimState P C S T K M Po,
      (st.paused = true ∨ st.isGameOver = true) →
      animate delta playerUpd enemySec pickupUpd camUpd turretUpd molotovUpd
        potionUpd regenMana st = (st, true) := by
    intro st h
    unfold animate
    rcases h with hp | hg
    · simp [hp]
    · cases hp2 : st.paused <;> simp [hp2, hg]
  refine ⟨hret s, ?_⟩
  intro hg n
  induction n with
  | zero =>
    refine ⟨rfl, ?_⟩
    rw [Function.iterate_zero_apply, hret s (Or.inr hg)]
  | succ n ih =>
    have hstep : (fun st => (animate delta playerUpd enemySec pickupUpd camUpd
        turretUpd molotovUpd potionUpd regenMana st).1)^[n + 1] s = s := by
      rw [Function.iterate_succ_apply', ih.1, hret s (Or.inr hg)]
    refine ⟨hstep, ?_⟩
    rw [hstep, hret s (Or.inr hg)]

/-- Witness for C9: a concrete paused state passes through a tick with
concrete update functions completely unchanged and is rendered, and a
concrete game-over state is still frozen (and rendered) after three more
frames. -/
theorem c9_witness :
    (@animate Unit Unit Unit Unit Unit Unit Unit 0 id
        (fun sp es p => (sp, es, p, false)) (fun k => (k, false)) (fun c _ => c)
        id (fun m es => (m, es, false)) (fun _ => none) id
        (AnimState.mk true false true () () () [] [] [] [] [] none) =
      (AnimState.mk true false true () () () [] [] [] [] [] none, true)) ∧
    ((fun st => (@animate Unit Unit Unit Unit Unit Unit Unit 0 id
        (fun sp es p => (sp, es, p, false)) (fun k => (k, false)) (fun c _ => c)
        id (fun m es => (m, es, false)) (fun _ => none) id st).1)^[3]
        (AnimState.mk false true true () () () [] [] [] [] [] none) =
      AnimState.mk false true true () () () [] [] [] [] [] none) :=
  ⟨(@c9_paused_frame_renders_only Unit Unit Unit Unit Unit Unit Unit 0 id
      (fun sp es p => (sp, es, p, false)) (fun k => (k, false)) (fun c _ => c) id
      (fun m es => (m, es, false)) (fun _ => none) id
      (AnimState.mk true false true () () () [] [] [] [] [] none)).1 (Or.inl rfl),
   ((@c9_paused_frame_renders_only Unit Unit Unit Unit Unit Unit Unit 0 id
      (fun sp es p => (sp, es, p, false)) (fun k => (k, false)) (fun c _ => c) id
      (fun m es => (m, es, false)) (fun _ => none) id
      (AnimState.mk false true true () () () [] [] [] [] [] none)).2 rfl 3).1⟩

end Game
